import Mathlib

/-!
Shallow embedding of the `opencode-autotitle` plugin (single-file TypeScript
source, `src/unnamed/part_003`).  Strings are modelled as Lean `String`
(a wrapper around `List Char`); the per-character classes of the JS regexes
involved (`\w`, `\s`) are modelled explicitly.  The asynchronous event
handlers are modelled twice, faithfully to the same source lines:

* as atomic functions from an environment of collaborator responses
  (current title, fetched messages, AI result, update success) and a state
  to a new state plus the list of external calls they make, and
* as a small-step system whose steps are the synchronous segments between
  `await` suspension points, so that interleavings of several in-flight
  handler invocations can be analysed.
-/

/-- JS regex `\w` character class: `[A-Za-z0-9_]`. -/
def isWordChar (c : Char) : Bool :=
  (decide ('a' ≤ c) && decide (c ≤ 'z')) ||
  (decide ('A' ≤ c) && decide (c ≤ 'Z')) ||
  (decide ('0' ≤ c) && decide (c ≤ '9')) ||
  c == '_'

/-- JS regex `\s` character class (ECMAScript WhiteSpace and LineTerminator
code points). -/
def isJsSpace (c : Char) : Bool :=
  c == ' ' || c == '\t' || c == '\n' || c == '\r' || c == '\x0b' || c == '\x0c' ||
  c == '\u00A0' || c == '\u1680' ||
  (decide ('\u2000' ≤ c) && decide (c ≤ '\u200A')) ||
  c == '\u2028' || c == '\u2029' || c == '\u202F' || c == '\u205F' ||
  c == '\u3000' || c == '\uFEFF'

/-- One pass of `.replace(/\s+/g, " ")`: every maximal run of whitespace
becomes a single `' '`.  The boolean flag records whether the previous
character was whitespace. -/
def collapseWsAux : Bool → List Char → List Char
  | _, [] => []
  | inWs, c :: cs =>
    if isJsSpace c then
      if inWs then collapseWsAux true cs else ' ' :: collapseWsAux true cs
    else c :: collapseWsAux false cs

/-- `.replace(/\s+/g, " ")` on a character list. -/
def collapseWs (cs : List Char) : List Char := collapseWsAux false cs

/-- JS `String.prototype.trim()`: strip leading and trailing whitespace. -/
def trimJs (cs : List Char) : List Char :=
  ((cs.dropWhile isJsSpace).reverse.dropWhile isJsSpace).reverse

/-- `sanitizeTitle` (source lines 267-273):
`title.replace(/[^\w\s-]/g, "").replace(/\s+/g, " ").trim().slice(0, maxLength)`. -/
def sanitizeTitle (title : String) (maxLength : Nat) : String :=
  ⟨(trimJs (collapseWs
      (title.data.filter fun c => isWordChar c || isJsSpace c || c == '-'))).take maxLength⟩

/-- The stop-word set of `extractKeywords` (source lines 276-296), in source
order (the source stores them in a JS `Set`; only membership matters). -/
def stopWords : List String :=
  ["a", "an", "the", "is", "are", "was", "were", "be", "been", "being",
   "have", "has", "had", "do", "does", "did", "will", "would", "could",
   "should", "may", "might", "must", "shall", "can", "need", "dare",
   "to", "of", "in", "for", "on", "with", "at", "by", "from", "as",
   "into", "through", "during", "before", "after", "above", "below",
   "between", "under", "again", "further", "then", "once", "here",
   "there", "when", "where", "why", "how", "all", "each", "few",
   "more", "most", "other", "some", "such", "no", "nor", "not",
   "only", "own", "same", "so", "than", "too", "very", "just",
   "and", "but", "if", "or", "because", "until", "while", "this",
   "that", "these", "those", "i", "me", "my", "myself", "we", "our",
   "you", "your", "he", "him", "his", "she", "her", "it", "its",
   "they", "them", "their", "what", "which", "who", "whom", "please",
   "help", "want", "like", "make", "create", "write", "add", "get",
   "came", "come", "goes", "going", "went", "give", "gave", "take", "took",
   "put", "see", "saw", "know", "knew", "think", "thought", "tell", "told",
   "ask", "asked", "use", "used", "find", "found", "let", "try", "tried",
   "look", "looking", "need", "needed", "seem", "seemed", "work", "working"]

/-- One character of `.replace(/[^\w\s]/g, " ")`: word characters and
whitespace are kept, everything else becomes a space. -/
def jsReplaceChar (c : Char) : Char :=
  if isWordChar c || isJsSpace c then c else ' '

/-- `.replace(/[^\w\s]/g, " ")` on a character list. -/
def jsReplaceNonWordWithSpace (cs : List Char) : List Char :=
  cs.map jsReplaceChar

/-- JS `String.prototype.split(/\s+/)`: split at maximal whitespace runs.
`some acc` means a token `acc` (reversed) is being accumulated; `none` means
the scanner is inside a whitespace run whose token has already been emitted.
Matches JS exactly, including the empty leading/trailing tokens
(`" a ".split(/\s+/)` is `["", "a", ""]`). -/
def splitWsAux : Option (List Char) → List Char → List (List Char)
  | some acc, [] => [acc.reverse]
  | none, [] => [[]]
  | some acc, c :: cs =>
    if isJsSpace c then acc.reverse :: splitWsAux none cs
    else splitWsAux (some (c :: acc)) cs
  | none, c :: cs =>
    if isJsSpace c then splitWsAux none cs
    else splitWsAux (some [c]) cs

/-- The word stream of `extractKeywords` (source lines 299-303):
`text.toLowerCase().replace(/[^\w\s]/g, " ").split(/\s+/)` followed by the
`word.length > 2 && !stopWords.has(word)` filter. -/
def keywordCandidates (text : String) : List String :=
  ((splitWsAux (some []) (jsReplaceNonWordWithSpace (text.data.map Char.toLower))).map
      (fun l => (⟨l⟩ : String))).filter
    (fun w => decide (2 < w.length) && !(stopWords.contains w))

/-- The duplicate-removal loop of `extractKeywords` (source lines 306-313):
keep the first occurrence of each word, in order. -/
def dedupKeepFirst (seen : List String) : List String → List String
  | [] => []
  | w :: ws =>
    if seen.contains w then dedupKeepFirst seen ws
    else w :: dedupKeepFirst (w :: seen) ws

/-- `extractKeywords` (source lines 275-316). -/
def extractKeywords (text : String) : List String :=
  (dedupKeepFirst [] (keywordCandidates text)).take 6

/-- JS `split(" ")` (single-space separator, used by the title-case branch of
`generateFallbackTitle`): split at every `' '`. -/
def splitSp : List Char → List (List Char)
  | [] => [[]]
  | c :: cs =>
    match splitSp cs with
    | [] => [[]]
    | w :: ws => if c = ' ' then [] :: w :: ws else (c :: w) :: ws

/-- JS `join(" ")`. -/
def joinSp : List (List Char) → List Char
  | [] => []
  | [w] => w
  | w :: ws => w ++ ' ' :: joinSp ws

/-- `w.charAt(0).toUpperCase() + w.slice(1).toLowerCase()` (source line 348). -/
def titleCaseWord : List Char → List Char
  | [] => []
  | c :: rest => c.toUpper :: rest.map Char.toLower

/-- `keyword.charAt(0).toUpperCase() + keyword.slice(1)` (source line 361). -/
def capitalizeWord (w : String) : String :=
  match w.data with
  | [] => ""
  | c :: rest => ⟨c.toUpper :: rest⟩

/-- The greedy keyword-concatenation loop of `generateFallbackTitle`
(source lines 359-368): extend the running title while it stays within
`maxLength`, stop at the first keyword that would overflow. -/
def greedyJoin (maxLength : Nat) : String → List String → String
  | title, [] => title
  | title, kw :: kws =>
    let capitalized := capitalizeWord kw
    let potential := if title = "" then capitalized else title ++ " " ++ capitalized
    if potential.length ≤ maxLength then greedyJoin maxLength potential kws
    else title

/-- `generateFallbackTitle` (source lines 337-371). -/
def generateFallbackTitle (text : String) (maxLength : Nat) : String :=
  let keywords := extractKeywords text
  let cleanedText : String := ⟨trimJs (collapseWs (jsReplaceNonWordWithSpace text.data))⟩
  if cleanedText.length ≤ maxLength ∧ 3 < cleanedText.length then
    ⟨joinSp ((splitSp cleanedText.data).map titleCaseWord)⟩
  else if keywords = [] then ""
  else sanitizeTitle (greedyJoin maxLength "" keywords) maxLength

/-- Month-name alternation of the timestamp patterns (source lines 242-243),
lower-cased. -/
def monthNames : List String :=
  ["jan", "feb", "mar", "apr", "may", "jun", "jul", "aug", "sep", "oct", "nov", "dec"]

/-- Case-insensitive test of a three-character month name. -/
def isMonth (l : List Char) : Bool := monthNames.contains ⟨l.map Char.toLower⟩

/-- Anchored match of `/^\d{4}-\d{2}-\d{2}/`. -/
def matchISO : List Char → Bool
  | a :: b :: c :: d :: '-' :: e :: f :: '-' :: g :: h :: _ =>
    a.isDigit && b.isDigit && c.isDigit && d.isDigit &&
    e.isDigit && f.isDigit && g.isDigit && h.isDigit
  | _ => false

/-- Match `\d{1,2}\/` at the front, returning the remainder.  With
backtracking, `\d{1,2}\/` succeeds on one digit followed by `/` or two
digits followed by `/`. -/
def numSlash : List Char → Option (List Char)
  | a :: '/' :: rest => if a.isDigit then some rest else none
  | a :: b :: '/' :: rest => if a.isDigit && b.isDigit then some rest else none
  | _ => none

/-- Anchored match of `/^\d{1,2}\/\d{1,2}\/\d{2,4}/`. -/
def matchSlashDate (cs : List Char) : Bool :=
  match numSlash cs with
  | some rest =>
    match numSlash rest with
    | some rest2 =>
      match rest2 with
      | a :: b :: _ => a.isDigit && b.isDigit
      | _ => false
    | none => false
  | none => false

/-- Match `\s+\d` at the front (a `\d{1,2}`/`\d+` tail of an anchored pattern
needs only one digit). -/
def wsThenDigit : List Char → Bool
  | c :: rest =>
    isJsSpace c &&
      (match rest.dropWhile isJsSpace with
       | d :: _ => d.isDigit
       | [] => false)
  | [] => false

/-- Match `\s+(Jan|...|Dec)` at the front, case-insensitively. -/
def wsThenMonth : List Char → Bool
  | c :: rest =>
    isJsSpace c &&
      (match rest.dropWhile isJsSpace with
       | a :: b :: c2 :: _ => isMonth [a, b, c2]
       | _ => false)
  | [] => false

/-- Anchored match of `/^(Jan|...|Dec)\s+\d{1,2}/i`. -/
def matchMonthDay : List Char → Bool
  | a :: b :: c :: rest => isMonth [a, b, c] && wsThenDigit rest
  | _ => false

/-- Anchored match of `/^\d{1,2}\s+(Jan|...|Dec)/i`. -/
def matchDayMonth : List Char → Bool
  | a :: rest =>
    a.isDigit &&
      (wsThenMonth rest ||
        (match rest with
         | b :: rest2 => b.isDigit && wsThenMonth rest2
         | [] => false))
  | [] => false

/-- Case-insensitive anchored literal match (the literal is given in lower
case). -/
def startsWithCI (pre : String) (cs : List Char) : Bool :=
  pre.data.isPrefixOf (cs.map Char.toLower)

/-- Anchored match of `/^Session\s+\d+/i`. -/
def matchSessionN (cs : List Char) : Bool :=
  startsWithCI "session" cs && wsThenDigit (cs.drop 7)

/-- Anchored match of `/^New\s+Session/i`. -/
def matchNewSession (cs : List Char) : Bool :=
  startsWithCI "new" cs &&
    (match cs.drop 3 with
     | c :: rest => isJsSpace c && startsWithCI "session" (rest.dropWhile isJsSpace)
     | [] => false)

/-- `isTimestampTitle` (source lines 235-250): `undefined`, empty and
whitespace-only titles count as timestamp titles, as does any title whose
trimmed form matches one of the recognized default-title patterns.  (In JS,
`!title` is true both for `undefined` and for the empty string.) -/
def isTimestampTitle : Option String → Bool
  | none => true
  | some title =>
    title.data.isEmpty ||
    (trimJs title.data).isEmpty ||
    (let t := trimJs title.data
     matchISO t || matchSlashDate t || matchMonthDay t || matchDayMonth t ||
     matchSessionN t || matchNewSession t || startsWithCI "untitled" t)

/-- Emoji marker of Phase-1 keyword titles (source line 6). -/
def EMOJI_KEYWORD : String := "🔍"

/-- Emoji marker of Phase-2 AI titles (source line 7). -/
def EMOJI_AI : String := "✨"

/-- `hasPluginEmoji` (source lines 253-256). -/
def hasPluginEmoji : Option String → Bool
  | none => false
  | some title =>
    EMOJI_KEYWORD.data.isPrefixOf title.data || EMOJI_AI.data.isPrefixOf title.data

/-- `shouldModifyTitle` (source lines 261-265): true on default/timestamp
titles and on titles carrying one of the plugin's own emoji markers; false
on user-authored custom titles. -/
def shouldModifyTitle (title : Option String) : Bool :=
  isTimestampTitle title || hasPluginEmoji title

/-- `CHEAP_MODEL_PATTERNS` (source lines 26-37): the case-insensitive
substring patterns, in priority order. -/
def CHEAP_MODEL_PATTERNS : List String :=
  ["fast", "flash", "haiku", "mini", "instant", "small", "lite", "turbo", "8b", "7b"]

/-- Substring test on character lists. -/
def isSubstr (pat : List Char) : List Char → Bool
  | [] => pat.isEmpty
  | c :: rest => pat.isPrefixOf (c :: rest) || isSubstr pat rest

/-- `pattern.test(id)` for the `/.../i` patterns above: case-insensitive
substring test (the patterns are already lower-case). -/
def testCI (pat id : String) : Bool :=
  isSubstr pat.data (id.data.map Char.toLower)

/-- The pattern loop of `findCheapestFromModels` (source lines 57-63):
for each pattern in priority order, return the first model id it matches. -/
def findPattern : List String → List String → Option String
  | [], _ => none
  | p :: ps, ids =>
    match ids.find? (fun id => testCI p id) with
    | some m => some m
    | none => findPattern ps ids

/-- `findCheapestFromModels` (source lines 39-68), on an already-normalized
list of model-id strings.  `modelIds[0] || null` is JS: an empty-string
first id is falsy and yields `null`. -/
def findCheapestFromModels (modelIds : List String) : Option String :=
  if modelIds.isEmpty then none
  else
    match findPattern CHEAP_MODEL_PATTERNS modelIds with
    | some m => some m
    | none =>
      match modelIds.head? with
      | some m => if m = "" then none else some m
      | none => none

/-- Numeric value of a nonempty digit list. -/
def natOfDigits (ds : List Char) : Nat :=
  ds.foldl (fun n c => 10 * n + (c.toNat - '0'.toNat)) 0

/-- Unsigned part of the decimal fragment of the JS `Number()` conversion:
`digits`, `digits.digits`, `digits.` or `.digits`, consuming the whole
input; anything else is NaN (`none`). -/
def parseUnsignedDec (cs : List Char) : Option Rat :=
  let intPart := cs.takeWhile Char.isDigit
  let rest := cs.dropWhile Char.isDigit
  match rest with
  | [] => if intPart.isEmpty then none else some (natOfDigits intPart)
  | '.' :: frac =>
    if frac.all Char.isDigit && !(intPart.isEmpty && frac.isEmpty) then
      some ((natOfDigits intPart : Rat) + (natOfDigits frac : Rat) / ((10 : Rat) ^ frac.length))
    else none
  | _ => none

/-- The decimal fragment of the JS `Number(string)` conversion: trim
whitespace, the empty string is `0`, an optional sign followed by a decimal
literal is its value, anything else is NaN (`none`).  (The exotic forms —
exponents, hex/octal/binary literals, `Infinity` — are outside the inputs
this development reasons about and are not modelled.) -/
def jsNumberParse (s : String) : Option Rat :=
  match trimJs s.data with
  | [] => some 0
  | '-' :: rest => (parseUnsignedDec rest).map (fun q => -q)
  | '+' :: rest => parseUnsignedDec rest
  | cs => parseUnsignedDec cs

/-- `debug` configuration value: `false`, `true` (stderr) or a log-file
path (source line 14). -/
inductive JsDebug
  | off
  | on
  | file (path : String)
  deriving DecidableEq, Repr

/-- `PluginConfig` (source lines 9-15).  `maxLength` is the raw JS number
the source computes, modelled as a rational. -/
structure PluginConfig where
  model : Option String
  provider : Option String
  maxLength : Rat
  disabled : Bool
  debug : JsDebug
  deriving DecidableEq, Repr

/-- The environment variables `loadConfig` reads (`none` = unset). -/
structure Env where
  OPENCODE_AUTOTITLE_MODEL : Option String := none
  OPENCODE_AUTOTITLE_PROVIDER : Option String := none
  OPENCODE_AUTOTITLE_MAX_LENGTH : Option String := none
  OPENCODE_AUTOTITLE_DISABLED : Option String := none
  OPENCODE_AUTOTITLE_DEBUG : Option String := none

/-- JS `x || null` on an environment string: unset and empty are falsy. -/
def envOrNull : Option String → Option String
  | none => none
  | some s => if s = "" then none else some s

/-- `loadConfig` (source lines 70-92).  `maxLength` is
`Number(env.OPENCODE_AUTOTITLE_MAX_LENGTH) || 60`: `Number(undefined)` is
NaN, and both NaN and `0` are falsy, so those cases default to `60`; any
other parsed value is used as-is. -/
def loadConfig (env : Env) : PluginConfig :=
  let debug : JsDebug :=
    match env.OPENCODE_AUTOTITLE_DEBUG with
    | none => .off
    | some s =>
      if s = "" then .off
      else if s = "1" || s = "true" then .on
      else if s = "0" || s = "false" then .off
      else .file s
  { model := envOrNull env.OPENCODE_AUTOTITLE_MODEL
    provider := envOrNull env.OPENCODE_AUTOTITLE_PROVIDER
    maxLength :=
      match env.OPENCODE_AUTOTITLE_MAX_LENGTH with
      | none => 60
      | some s =>
        match jsNumberParse s with
        | none => 60
        | some q => if q = 0 then 60 else q
    disabled :=
      env.OPENCODE_AUTOTITLE_DISABLED == some "1" ||
      env.OPENCODE_AUTOTITLE_DISABLED == some "true"
    debug := debug }

/-- The tri-state cached model choice (source line 21 and 664-675):
`unresolved` is the JS `null` initial value, `noneFound` is `undefined`
(lookup finished without a model), `found` is a resolved
`{providerID, modelID}`. -/
inductive ModelCache
  | unresolved
  | noneFound
  | found (providerID modelID : String)
  deriving DecidableEq, Repr

/-- `State` (source lines 17-22): the three per-session tracking sets and
the cached model choice.  The JS `Set<string>`s are modelled as duplicate-free
lists built by `sadd`/`sdel`. -/
structure State where
  keywordTitledSessions : List String
  aiTitledSessions : List String
  pendingAISessions : List String
  cheapestModel : ModelCache
  deriving DecidableEq, Repr

/-- The state the plugin starts with (source lines 525-530). -/
def initState : State := ⟨[], [], [], .unresolved⟩

/-- JS `Set.add`. -/
def sadd (x : String) (s : List String) : List String :=
  if x ∈ s then s else x :: s

/-- JS `Set.delete`. -/
def sdel (x : String) (s : List String) : List String :=
  s.filter (fun y => y ≠ x)

/-- The external calls a handler invocation makes that this development
tracks: invocations of the title-update operation
(`client.session.update`, via the `updateTitle` helper) and AI-generation
attempts (calls of `generateAITitle`). -/
inductive Call
  | updateTitleCall (sessionId title : String)
  | aiGenerate (sessionId : String)
  deriving DecidableEq, Repr

/-- Collaborator responses consumed by one `handleUserMessage` invocation:
the current title returned by `getSessionTitle` (`none` = `undefined`) and
whether `updateTitle` succeeds. -/
structure UmEnv where
  currentTitle : Option String
  updateOk : Bool

/-- `handleUserMessage` (source lines 593-622) as an atomic function: the
resulting state and the external calls made. -/
def handleUserMessage (maxLength : Nat) (env : UmEnv) (s : State)
    (sessionId userText : String) : State × List Call :=
  if sessionId ∈ s.keywordTitledSessions ∨ sessionId ∈ s.aiTitledSessions then (s, [])
  else if !shouldModifyTitle env.currentTitle then
    ({ s with aiTitledSessions := sadd sessionId s.aiTitledSessions }, [])
  else
    let keywordTitle := generateFallbackTitle userText (maxLength - 2)
    if keywordTitle = "" then (s, [])
    else
      let fullTitle := EMOJI_KEYWORD ++ " " ++ keywordTitle
      if env.updateOk then
        ({ s with keywordTitledSessions := sadd sessionId s.keywordTitledSessions },
         [Call.updateTitleCall sessionId fullTitle])
      else (s, [Call.updateTitleCall sessionId fullTitle])

/-- Collaborator responses consumed by one `handleSessionIdle` invocation.
`throws = true` models an exception raised by an awaited call inside the
`try` block (all of which happen before any state mutation of the `try`
body), landing in the `catch` branch.  A `findCheapestModel` failure and a
`findCheapestModel` exception coincide in `foundModel = none` (the source
maps both to `undefined`).  `aiTitle` is the value `generateAITitle`
resolves to (it never throws past its boundary, source lines 467-477). -/
structure IdleEnv where
  currentTitle : Option String
  userMessage : Option String
  assistantMessage : Option String
  foundModel : Option (String × String)
  throws : Bool
  aiTitle : Option String
  updateOk : Bool

/-- `handleSessionIdle` (source lines 624-702) as an atomic function: the
resulting state and the external calls made.  The `finally` step that
deletes the session from `pendingAISessions` is applied to every path of
the `try`/`catch` body. -/
def handleSessionIdle (env : IdleEnv) (s : State) (sessionId : String) :
    State × List Call :=
  if sessionId ∈ s.aiTitledSessions then (s, [])
  else if sessionId ∈ s.pendingAISessions then (s, [])
  else if !shouldModifyTitle env.currentTitle then
    ({ s with aiTitledSessions := sadd sessionId s.aiTitledSessions }, [])
  else
    let s1 := { s with pendingAISessions := sadd sessionId s.pendingAISessions }
    let body : State × List Call :=
      if env.throws then (s1, [])
      else
        match env.userMessage with
        | none => (s1, [])
        | some _ =>
          let s2 :=
            if s1.cheapestModel = ModelCache.unresolved then
              { s1 with
                cheapestModel :=
                  match env.foundModel with
                  | some (p, m) => ModelCache.found p m
                  | none => ModelCache.noneFound }
            else s1
          match env.aiTitle with
          | some t =>
            let fullTitle := EMOJI_AI ++ " " ++ t
            if env.updateOk then
              ({ s2 with
                  aiTitledSessions := sadd sessionId s2.aiTitledSessions,
                  keywordTitledSessions := sdel sessionId s2.keywordTitledSessions },
               [Call.aiGenerate sessionId, Call.updateTitleCall sessionId fullTitle])
            else (s2, [Call.aiGenerate sessionId, Call.updateTitleCall sessionId fullTitle])
          | none =>
            if sessionId ∈ s2.keywordTitledSessions then
              ({ s2 with aiTitledSessions := sadd sessionId s2.aiTitledSessions },
               [Call.aiGenerate sessionId])
            else (s2, [Call.aiGenerate sessionId])
    ({ body.1 with pendingAISessions := sdel sessionId body.1.pendingAISessions }, body.2)

/-- Program counter of an in-flight handler invocation: each constructor is
the synchronous segment entered when the preceding `await` resolves.
`handleUserMessage` suspends at `getSessionTitle` (line 601) and
`updateTitle` (line 618); `handleSessionIdle` suspends at `getSessionTitle`
(line 637), `getSessionMessages` (line 650), `findCheapestModel` (line 666,
taken only when the cache is unresolved), `generateAITitle` (line 678) and
`updateTitle` (line 685). -/
inductive HPC
  | umEntry (userText : String)
  | umTitleFetched (userText : String)
  | umUpdateDone
  | idEntry
  | idTitleFetched
  | idMessagesFetched
  | idModelFetched
  | idAIDone
  | idUpdateDone
  | hdone
  deriving DecidableEq, Repr

/-- An in-flight handler invocation: its session id and program counter. -/
structure Inst where
  sid : String
  pc : HPC
  deriving DecidableEq, Repr

/-- Collaborator responses, per session id (`foundModel` is session
independent): what `getSessionTitle`, `getSessionMessages`,
`findCheapestModel`, `generateAITitle` and `updateTitle` resolve to.  The
step model does not model exceptions. -/
structure Oracle where
  getTitle : String → Option String
  userMessage : String → Option String
  foundModel : Option (String × String)
  aiResult : String → Option String
  updateOk : String → Bool

/-- One synchronous segment of a handler invocation: from the program point
where the last `await` resolved (reading its value from the oracle) up to
the next `await` or return.  Returns the new shared state, the instance at
its next program point, and the external calls made during the segment. -/
def step (o : Oracle) (maxLength : Nat) (s : State) (inst : Inst) :
    State × Inst × List Call :=
  match inst.pc with
  | .umEntry text =>
    if inst.sid ∈ s.keywordTitledSessions ∨ inst.sid ∈ s.aiTitledSessions then
      (s, { inst with pc := .hdone }, [])
    else (s, { inst with pc := .umTitleFetched text }, [])
  | .umTitleFetched text =>
    if !shouldModifyTitle (o.getTitle inst.sid) then
      ({ s with aiTitledSessions := sadd inst.sid s.aiTitledSessions },
       { inst with pc := .hdone }, [])
    else
      let kw := generateFallbackTitle text (maxLength - 2)
      if kw = "" then (s, { inst with pc := .hdone }, [])
      else
        (s, { inst with pc := .umUpdateDone },
         [Call.updateTitleCall inst.sid (EMOJI_KEYWORD ++ " " ++ kw)])
  | .umUpdateDone =>
    if o.updateOk inst.sid then
      ({ s with keywordTitledSessions := sadd inst.sid s.keywordTitledSessions },
       { inst with pc := .hdone }, [])
    else (s, { inst with pc := .hdone }, [])
  | .idEntry =>
    if inst.sid ∈ s.aiTitledSessions then (s, { inst with pc := .hdone }, [])
    else if inst.sid ∈ s.pendingAISessions then (s, { inst with pc := .hdone }, [])
    else (s, { inst with pc := .idTitleFetched }, [])
  | .idTitleFetched =>
    if !shouldModifyTitle (o.getTitle inst.sid) then
      ({ s with aiTitledSessions := sadd inst.sid s.aiTitledSessions },
       { inst with pc := .hdone }, [])
    else
      ({ s with pendingAISessions := sadd inst.sid s.pendingAISessions },
       { inst with pc := .idMessagesFetched }, [])
  | .idMessagesFetched =>
    match o.userMessage inst.sid with
    | none =>
      ({ s with pendingAISessions := sdel inst.sid s.pendingAISessions },
       { inst with pc := .hdone }, [])
    | some _ =>
      if s.cheapestModel = ModelCache.unresolved then
        (s, { inst with pc := .idModelFetched }, [])
      else (s, { inst with pc := .idAIDone }, [Call.aiGenerate inst.sid])
  | .idModelFetched =>
    ({ s with
        cheapestModel :=
          match o.foundModel with
          | some (p, m) => ModelCache.found p m
          | none => ModelCache.noneFound },
     { inst with pc := .idAIDone }, [Call.aiGenerate inst.sid])
  | .idAIDone =>
    match o.aiResult inst.sid with
    | some t =>
      (s, { inst with pc := .idUpdateDone },
       [Call.updateTitleCall inst.sid (EMOJI_AI ++ " " ++ t)])
    | none =>
      if inst.sid ∈ s.keywordTitledSessions then
        ({ s with
            aiTitledSessions := sadd inst.sid s.aiTitledSessions,
            pendingAISessions := sdel inst.sid s.pendingAISessions },
         { inst with pc := .hdone }, [])
      else
        ({ s with pendingAISessions := sdel inst.sid s.pendingAISessions },
         { inst with pc := .hdone }, [])
  | .idUpdateDone =>
    if o.updateOk inst.sid then
      ({ s with
          aiTitledSessions := sadd inst.sid s.aiTitledSessions,
          keywordTitledSessions := sdel inst.sid s.keywordTitledSessions,
          pendingAISessions := sdel inst.sid s.pendingAISessions },
       { inst with pc := .hdone }, [])
    else
      ({ s with pendingAISessions := sdel inst.sid s.pendingAISessions },
       { inst with pc := .hdone }, [])
  | .hdone => (s, inst, [])

/-- Run a pool of in-flight handler invocations under an explicit schedule:
each schedule entry names the instance whose next synchronous segment runs
(out-of-range entries are skipped).  The runtime dispatches handlers
without serializing them, so any schedule is possible. -/
def run (o : Oracle) (maxLength : Nat) :
    State → List Inst → List Nat → State × List Inst × List Call
  | s, insts, [] => (s, insts, [])
  | s, insts, i :: sched =>
    match insts.get? i with
    | none => run o maxLength s insts sched
    | some inst =>
      let r := step o maxLength s inst
      let rest := run o maxLength r.1 (insts.set i r.2.1) sched
      (rest.1, rest.2.1, r.2.2 ++ rest.2.2)

theorem titleCaseWord_length (w : List Char) : (titleCaseWord w).length = w.length := by
  cases w <;> simp [titleCaseWord]

theorem joinSp_map_titleCase_length :
    ∀ ws : List (List Char), (joinSp (ws.map titleCaseWord)).length = (joinSp ws).length
  | [] => rfl
  | [w] => by simp [joinSp, titleCaseWord_length]
  | w :: w2 :: ws => by
    simpa [joinSp, titleCaseWord_length] using joinSp_map_titleCase_length (w2 :: ws)

theorem splitSp_ne_nil : ∀ cs : List Char, splitSp cs ≠ []
  | [] => by simp [splitSp]
  | c :: cs => by
    unfold splitSp
    cases h : splitSp cs with
    | nil => exact absurd h (splitSp_ne_nil cs)
    | cons w ws => by_cases hc : c = ' ' <;> simp [hc]

theorem joinSp_splitSp : ∀ cs : List Char, joinSp (splitSp cs) = cs
  | [] => rfl
  | c :: cs => by
    have ih := joinSp_splitSp cs
    unfold splitSp
    cases h : splitSp cs with
    | nil => exact absurd h (splitSp_ne_nil cs)
    | cons w ws =>
      rw [h] at ih
      by_cases hc : c = ' '
      · subst hc
        simpa [joinSp] using ih
      · simp only [if_neg hc]
        cases ws with
        | nil => simpa [joinSp] using ih
        | cons w2 ws2 => simpa [joinSp] using ih

theorem titleCase_join_length (cs : List Char) :
    (joinSp ((splitSp cs).map titleCaseWord)).length = cs.length := by
  rw [joinSp_map_titleCase_length, joinSp_splitSp]

theorem sanitizeTitle_length_le (t : String) (ml : Nat) :
    (sanitizeTitle t ml).length ≤ ml := by
  show (List.take ml _).length ≤ ml
  exact List.length_take_le ml _

/-- C4: for every text and every maxLength, the fallback title is at most
`maxLength` characters long: the short-message shortcut branch returns a
title-cased string of exactly the cleaned text's length, which the branch
guard bounds by `maxLength`, and the greedy keyword branch ends in
`sanitizeTitle _ maxLength`, whose final `slice` truncates to `maxLength`. -/
theorem generateFallbackTitle_length_le (text : String) (maxLength : Nat) :
    (generateFallbackTitle text maxLength).length ≤ maxLength := by
  simp only [generateFallbackTitle]
  split
  · next h =>
    show (joinSp ((splitSp _).map titleCaseWord)).length ≤ maxLength
    rw [titleCase_join_length]
    exact h.1
  · split
    · next => exact Nat.zero_le maxLength
    · next => exact sanitizeTitle_length_le _ _

/-- C3 counterexample: `sanitizeTitle` does not preserve dots.  `'.'` is
outside `[\w\s-]`, so `.replace(/[^\w\s-]/g, "")` deletes it:
`sanitizeTitle("Fix package.json", 60)` is `"Fix packagejson"`, not
`"Fix package.json"`. -/
theorem sanitizeTitle_dot_counterexample :
    ¬ sanitizeTitle "Fix package.json" 60 = "Fix package.json" := by decide

/-- C3 (amended): `sanitizeTitle("Fix package.json", 60)` strips the dot,
giving `"Fix packagejson"`; `sanitizeTitle("Hello! World?", 60)` is
`"Hello World"`. -/
theorem sanitizeTitle_examples :
    sanitizeTitle "Fix package.json" 60 = "Fix packagejson" ∧
    sanitizeTitle "Hello! World?" 60 = "Hello World" := by
  exact ⟨by decide, by decide⟩

theorem splitWsAux_within :
    ∀ cs : List Char,
      (∀ acc tok, tok ∈ splitWsAux (some acc) cs → tok <:+: (acc.reverse ++ cs)) ∧
      (∀ tok, tok ∈ splitWsAux none cs → tok <:+: cs) := by
  intro cs
  induction cs with
  | nil =>
    refine ⟨fun acc tok h => ?_, fun tok h => ?_⟩
    · simp [splitWsAux] at h
      subst h
      simp
    · simp [splitWsAux] at h
      subst h
      exact List.nil_infix
  | cons c cs ih =>
    obtain ⟨ihs, ihn⟩ := ih
    refine ⟨fun acc tok h => ?_, fun tok h => ?_⟩
    · by_cases hc : isJsSpace c
      · simp [splitWsAux, hc] at h
        rcases h with h | h
        · subst h
          exact ⟨[], c :: cs, by simp⟩
        · exact (ihn tok h).trans ⟨acc.reverse ++ [c], [], by simp⟩
      · simp [splitWsAux, hc] at h
        have := ihs (c :: acc) tok h
        simpa using this
    · by_cases hc : isJsSpace c
      · simp [splitWsAux, hc] at h
        exact (ihn tok h).trans ⟨[c], [], by simp⟩
      · simp [splitWsAux, hc] at h
        have := ihs [c] tok h
        simpa using this

theorem splitWsAux_nonspace :
    ∀ cs : List Char,
      (∀ acc tok, (∀ a ∈ acc, isJsSpace a = false) → tok ∈ splitWsAux (some acc) cs →
        ∀ a ∈ tok, isJsSpace a = false) ∧
      (∀ tok, tok ∈ splitWsAux none cs → ∀ a ∈ tok, isJsSpace a = false) := by
  intro cs
  induction cs with
  | nil =>
    refine ⟨fun acc tok hacc h => ?_, fun tok h => ?_⟩
    · simp [splitWsAux] at h
      subst h
      intro a ha
      exact hacc a (List.mem_reverse.mp ha)
    · simp [splitWsAux] at h
      subst h
      intro a ha
      simp at ha
  | cons c cs ih =>
    obtain ⟨ihs, ihn⟩ := ih
    refine ⟨fun acc tok hacc h => ?_, fun tok h => ?_⟩
    · by_cases hc : isJsSpace c
      · simp [splitWsAux, hc] at h
        rcases h with h | h
        · subst h
          intro a ha
          exact hacc a (List.mem_reverse.mp ha)
        · exact ihn tok h
      · simp [splitWsAux, hc] at h
        refine ihs (c :: acc) tok ?_ h
        intro a ha
        rcases List.mem_cons.mp ha with rfl | ha
        · exact Bool.eq_false_iff.mpr hc
        · exact hacc a ha
    · by_cases hc : isJsSpace c
      · simp [splitWsAux, hc] at h
        exact ihn tok h
      · simp [splitWsAux, hc] at h
        refine ihs [c] tok ?_ h
        intro a ha
        simp at ha
        subst ha
        exact Bool.eq_false_iff.mpr hc

theorem jsReplaceChar_fix (c : Char) :
    isJsSpace (jsReplaceChar c) = false → jsReplaceChar c = c := by
  unfold jsReplaceChar
  split
  · intro _
    rfl
  · intro h
    exact absurd h (by decide)

theorem prefix_unmap :
    ∀ l tok : List Char, tok <+: l.map jsReplaceChar →
      (∀ a ∈ tok, isJsSpace a = false) → tok <+: l := by
  intro l
  induction l with
  | nil =>
    intro tok h _
    rw [List.prefix_nil.mp h]
  | cons a l ih =>
    intro tok h hns
    cases tok with
    | nil => exact List.nil_prefix
    | cons b tok =>
      obtain ⟨t, ht⟩ := h
      simp only [List.map_cons, List.cons_append, List.cons.injEq] at ht
      obtain ⟨rfl, ht⟩ := ht
      have hb : jsReplaceChar a = a :=
        jsReplaceChar_fix a (hns _ (List.mem_cons_self _ _))
      rw [hb]
      have : tok <+: l := ih tok ⟨t, ht⟩ (fun x hx => hns x (List.mem_cons_of_mem _ hx))
      obtain ⟨t2, ht2⟩ := this
      exact ⟨t2, by simp [ht2]⟩

theorem infix_unmap :
    ∀ l tok : List Char, tok <:+: l.map jsReplaceChar →
      (∀ a ∈ tok, isJsSpace a = false) → tok <:+: l := by
  intro l
  induction l with
  | nil =>
    intro tok h _
    simp at h
    simp [h]
  | cons a l ih =>
    intro tok h hns
    obtain ⟨s, t, hst⟩ := h
    cases s with
    | nil =>
      have hpre : tok <+: (a :: l).map jsReplaceChar := ⟨t, by simpa using hst⟩
      exact (prefix_unmap (a :: l) tok hpre hns).isInfix
    | cons x s =>
      simp only [List.map_cons, List.cons_append, List.cons.injEq] at hst
      obtain ⟨-, hst⟩ := hst
      have : tok <:+: l := ih tok ⟨s, t, hst⟩ hns
      obtain ⟨s2, t2, h2⟩ := this
      exact ⟨a :: s2, t2, by simp [h2]⟩

theorem dedupKeepFirst_sublist :
    ∀ (seen l : List String), List.Sublist (dedupKeepFirst seen l) l := by
  intro seen l
  induction l generalizing seen with
  | nil => simp [dedupKeepFirst]
  | cons w ws ih =>
    unfold dedupKeepFirst
    by_cases h : seen.contains w
    · simp only [if_pos h]
      exact (ih seen).trans (List.sublist_cons_self w ws)
    · simp only [if_neg h]
      exact (ih (w :: seen)).cons₂ w

theorem dedupKeepFirst_not_mem_seen :
    ∀ (seen l : List String) (w : String), w ∈ dedupKeepFirst seen l → ¬ w ∈ seen := by
  intro seen l
  induction l generalizing seen with
  | nil => simp [dedupKeepFirst]
  | cons x ws ih =>
    intro w h
    unfold dedupKeepFirst at h
    by_cases hx : seen.contains x
    · simp only [if_pos hx] at h
      exact ih seen w h
    · simp only [if_neg hx] at h
      rcases List.mem_cons.mp h with rfl | h
      · simpa [List.elem_iff] using hx
      · intro hw
        exact ih (x :: seen) w h (List.mem_cons_of_mem _ hw)

theorem dedupKeepFirst_nodup :
    ∀ (seen l : List String), (dedupKeepFirst seen l).Nodup := by
  intro seen l
  induction l generalizing seen with
  | nil => simp [dedupKeepFirst]
  | cons x ws ih =>
    unfold dedupKeepFirst
    by_cases hx : seen.contains x
    · simp only [if_pos hx]
      exact ih seen
    · simp only [if_neg hx]
      refine List.nodup_cons.mpr ⟨fun hmem => ?_, ih (x :: seen)⟩
      exact dedupKeepFirst_not_mem_seen _ _ _ hmem (List.mem_cons_self x seen)

theorem mem_keywordCandidates (text w : String) (h : w ∈ keywordCandidates text) :
    2 < w.length ∧ ¬ w ∈ stopWords ∧ w.data <:+: text.data.map Char.toLower := by
  unfold keywordCandidates at h
  rw [List.mem_filter] at h
  obtain ⟨hmem, hp⟩ := h
  simp only [Bool.and_eq_true, decide_eq_true_eq, Bool.not_eq_true'] at hp
  obtain ⟨hlen, hstop⟩ := hp
  rw [List.mem_map] at hmem
  obtain ⟨tok, htok, rfl⟩ := hmem
  have hinfix0 := (splitWsAux_within _).1 [] tok htok
  have hns := (splitWsAux_nonspace _).1 [] tok (by simp) htok
  simp only [List.reverse_nil, List.nil_append] at hinfix0
  refine ⟨hlen, ?_, ?_⟩
  · simp only [List.contains] at hstop
    simpa using hstop
  · exact infix_unmap _ tok hinfix0 hns

/-- C5: for every text, `extractKeywords` returns at most 6 tokens, each of
length greater than 2, none in the stop-word set, each a substring of the
lower-cased text, with no duplicates and in first-occurrence order (the
output is a subsequence of the filtered word stream `keywordCandidates`);
and `extractKeywords("")` and `extractKeywords("the and or but")` are both
empty. -/
theorem extractKeywords_spec :
    (∀ text : String,
        (extractKeywords text).length ≤ 6 ∧
        (∀ w ∈ extractKeywords text,
            2 < w.length ∧ ¬ w ∈ stopWords ∧ w.data <:+: text.data.map Char.toLower) ∧
        (extractKeywords text).Nodup ∧
        List.Sublist (extractKeywords text) (keywordCandidates text)) ∧
    extractKeywords "" = [] ∧
    extractKeywords "the and or but" = [] := by
  refine ⟨fun text => ⟨?_, ?_, ?_, ?_⟩, by decide, by decide⟩
  · exact List.length_take_le 6 _
  · intro w hw
    have hd : w ∈ dedupKeepFirst [] (keywordCandidates text) := List.mem_of_mem_take hw
    have hc : w ∈ keywordCandidates text :=
      (dedupKeepFirst_sublist [] _).subset hd
    exact mem_keywordCandidates text w hc
  · exact ((List.take_sublist 6 _).nodup) (dedupKeepFirst_nodup [] _)
  · exact (List.take_sublist 6 _).trans (dedupKeepFirst_sublist [] _)

/-- Witness for C5 at a concrete input: `"hello"` is among
`extractKeywords "Hello world"` and satisfies the per-token guarantees. -/
theorem extractKeywords_spec_witness :
    2 < ("hello" : String).length ∧
    ¬ ("hello" : String) ∈ stopWords ∧
    ("hello" : String).data <:+: ("Hello world" : String).data.map Char.toLower :=
  (extractKeywords_spec.1 "Hello world").2.1 "hello" (by decide)

theorem findPattern_append_none :
    ∀ (pre ids : List String),
      (∀ q ∈ pre, ∀ id ∈ ids, testCI q id = false) →
      ∀ ps, findPattern (pre ++ ps) ids = findPattern ps ids := by
  intro pre
  induction pre with
  | nil => intro ids _ ps; rfl
  | cons q pre ih =>
    intro ids h ps
    have hq : ids.find? (fun id => testCI q id) = none := by
      rw [List.find?_eq_none]
      intro x hx
      simp [h q (List.mem_cons_self q pre) x hx]
    simp only [List.cons_append]
    rw [findPattern, hq]
    exact ih ids (fun q2 hq2 id hid => h q2 (List.mem_cons_of_mem _ hq2) id hid) ps

/-- C6 counterexample: for a non-empty model list matching no pattern whose
first id is the empty string, `findCheapestFromModels` returns `null`
instead of the first model id, because of the JS-falsy fallback
`modelIds[0] || null` (source line 67). -/
theorem findCheapestFromModels_counterexample :
    findCheapestFromModels [""] = none ∧ ¬ findCheapestFromModels [""] = some "" := by
  exact ⟨by decide, by decide⟩

/-- C6 (amended): `findCheapestFromModels` tests model ids against the
case-insensitive substring patterns in the exact priority order `fast`,
`flash`, `haiku`, `mini`, `instant`, `small`, `lite`, `turbo`, `8b`, `7b`,
returning the first id matching the earliest pattern; if no pattern matches
it returns the first model id provided that id is non-empty (an empty first
id is JS-falsy and yields null); it returns null for an empty list; and the
two quoted evaluations hold. -/
theorem findCheapestFromModels_spec :
    CHEAP_MODEL_PATTERNS =
      ["fast", "flash", "haiku", "mini", "instant", "small", "lite", "turbo", "8b", "7b"] ∧
    findCheapestFromModels [] = none ∧
    findCheapestFromModels ["gpt-4", "claude-opus"] = some "gpt-4" ∧
    findCheapestFromModels ["claude-3-haiku", "gemini-flash", "grok-fast"] = some "grok-fast" ∧
    (∀ (ids pre post : List String) (p m : String),
        CHEAP_MODEL_PATTERNS = pre ++ p :: post →
        (∀ q ∈ pre, ∀ id ∈ ids, testCI q id = false) →
        ids.find? (fun id => testCI p id) = some m →
        findCheapestFromModels ids = some m) ∧
    (∀ (ids : List String) (m : String),
        (∀ q ∈ CHEAP_MODEL_PATTERNS, ∀ id ∈ ids, testCI q id = false) →
        ids.head? = some m → ¬ m = "" →
        findCheapestFromModels ids = some m) := by
  refine ⟨rfl, by decide, by decide, by decide, ?_, ?_⟩
  · intro ids pre post p m hpat hpre hfind
    have hne : ids ≠ [] :=
      List.ne_nil_of_mem (List.mem_of_find?_eq_some hfind)
    unfold findCheapestFromModels
    rw [if_neg (by simpa [List.isEmpty_iff] using hne), hpat,
      findPattern_append_none pre ids hpre (p :: post), findPattern, hfind]
  · intro ids m hall hhead hm
    have hne : ids ≠ [] := by
      intro h
      rw [h] at hhead
      exact Option.noConfusion hhead
    unfold findCheapestFromModels
    rw [if_neg (by simpa [List.isEmpty_iff] using hne)]
    have : findPattern CHEAP_MODEL_PATTERNS ids = findPattern [] ids := by
      have := findPattern_append_none CHEAP_MODEL_PATTERNS ids hall []
      simpa using this
    rw [this]
    show (match ids.head? with
          | some m => if m = "" then none else some m
          | none => none) = some m
    rw [hhead]
    show (if m = "" then none else some m) = some m
    rw [if_neg hm]

/-- Witness for C6 at concrete inputs: the no-match fallback applied to
`["gpt-4", "claude-opus"]`. -/
theorem findCheapestFromModels_spec_witness :
    findCheapestFromModels ["gpt-4", "claude-opus"] = some "gpt-4" :=
  findCheapestFromModels_spec.2.2.2.2.2 ["gpt-4", "claude-opus"] "gpt-4"
    (by decide) (by decide) (by decide)

/-- C9 counterexample: with `OPENCODE_AUTOTITLE_MAX_LENGTH = "-5"`,
`Number("-5") = -5` is truthy, so `loadConfig` returns `maxLength = -5`,
which is not positive: the code never validates the parsed value. -/
theorem loadConfig_maxLength_counterexample :
    (loadConfig { OPENCODE_AUTOTITLE_MAX_LENGTH := some "-5" }).maxLength = -5 ∧
    ¬ 0 < (loadConfig { OPENCODE_AUTOTITLE_MAX_LENGTH := some "-5" }).maxLength := by
  exact ⟨by decide, by decide⟩

/-- C9 (amended): `loadConfig` never fails on the max-length variable: when
it is unset, unparseable as a number, or parses to `0`, `maxLength`
silently defaults to `60`; when it parses to a nonzero number, that value
is returned exactly as parsed — unvalidated, so it need not be a positive
integer. -/
theorem loadConfig_maxLength_spec :
    (loadConfig {}).maxLength = 60 ∧
    (loadConfig { OPENCODE_AUTOTITLE_MAX_LENGTH := some "abc" }).maxLength = 60 ∧
    (loadConfig { OPENCODE_AUTOTITLE_MAX_LENGTH := some "" }).maxLength = 60 ∧
    (loadConfig { OPENCODE_AUTOTITLE_MAX_LENGTH := some "0" }).maxLength = 60 ∧
    (∀ env : Env, env.OPENCODE_AUTOTITLE_MAX_LENGTH = none →
        (loadConfig env).maxLength = 60) ∧
    (∀ (env : Env) (s : String),
        env.OPENCODE_AUTOTITLE_MAX_LENGTH = some s → jsNumberParse s = none →
        (loadConfig env).maxLength = 60) ∧
    (∀ (env : Env) (s : String) (q : Rat),
        env.OPENCODE_AUTOTITLE_MAX_LENGTH = some s → jsNumberParse s = some q →
        ¬ q = 0 → (loadConfig env).maxLength = q) := by
  refine ⟨by decide, by decide, by decide, by decide, ?_, ?_, ?_⟩
  · intro env h
    simp [loadConfig, h]
  · intro env s h hq
    simp [loadConfig, h, hq]
  · intro env s q h hq hq0
    simp [loadConfig, h, hq, hq0]

/-- Witness for C9 at a concrete input: `"40"` parses to `40`, which is
returned unchanged. -/
theorem loadConfig_maxLength_spec_witness :
    (loadConfig { OPENCODE_AUTOTITLE_MAX_LENGTH := some "40" }).maxLength = 40 :=
  loadConfig_maxLength_spec.2.2.2.2.2.2
    { OPENCODE_AUTOTITLE_MAX_LENGTH := some "40" } "40" 40 rfl (by decide) (by decide)

theorem mem_sadd (x y : String) (s : List String) : x ∈ sadd y s ↔ x = y ∨ x ∈ s := by
  unfold sadd
  by_cases h : y ∈ s
  · rw [if_pos h]
    constructor
    · exact Or.inr
    · rintro (rfl | hx)
      · exact h
      · exact hx
  · rw [if_neg h]
    exact List.mem_cons

theorem not_mem_sdel (x : String) (s : List String) : ¬ x ∈ sdel x s := by
  unfold sdel
  simp [List.mem_filter]

theorem sdel_of_not_mem (x : String) (s : List String) (h : ¬ x ∈ s) : sdel x s = s := by
  unfold sdel
  apply List.filter_eq_self.mpr
  intro a ha
  simp only [decide_eq_true_eq]
  rintro rfl
  exact h ha

theorem sdel_sadd_self (x : String) (s : List String) (h : ¬ x ∈ s) :
    sdel x (sadd x s) = s := by
  unfold sadd
  rw [if_neg h]
  unfold sdel
  rw [List.filter_cons_of_neg (by simp)]
  exact sdel_of_not_mem x s h

/-- C7: outcomes of the idle handler.  (1) Whatever the collaborator
responses, a session not already stuck in `pendingAI` is out of
`pendingAI` when the handler finishes — the `finally` clearing covers the
success, null-result, no-user-text and thrown-error paths alike.  (2) On a
null AI result the session is marked terminal (`aiTitled`) exactly when it
already carries a keyword title; when it does not, all three tracking sets
are left unchanged, so the session stays eligible for a retry on a later
idle event. -/
theorem handleSessionIdle_outcomes :
    (∀ (env : IdleEnv) (s : State) (sid : String),
        ¬ sid ∈ s.pendingAISessions →
        ¬ sid ∈ (handleSessionIdle env s sid).1.pendingAISessions) ∧
    (∀ (env : IdleEnv) (s : State) (sid u : String),
        ¬ sid ∈ s.aiTitledSessions → ¬ sid ∈ s.pendingAISessions →
        shouldModifyTitle env.currentTitle = true → env.throws = false →
        env.userMessage = some u → env.aiTitle = none →
        ((sid ∈ (handleSessionIdle env s sid).1.aiTitledSessions ↔
            sid ∈ s.keywordTitledSessions) ∧
         (handleSessionIdle env s sid).1.keywordTitledSessions = s.keywordTitledSessions ∧
         (handleSessionIdle env s sid).1.pendingAISessions = s.pendingAISessions ∧
         (¬ sid ∈ s.keywordTitledSessions →
           (handleSessionIdle env s sid).1.aiTitledSessions = s.aiTitledSessions))) := by
  constructor
  · intro env s sid hp
    unfold handleSessionIdle
    by_cases h1 : sid ∈ s.aiTitledSessions
    · simp only [if_pos h1]
      exact hp
    · rw [if_neg h1, if_neg hp]
      cases h3 : shouldModifyTitle env.currentTitle with
      | false => simp only [h3, Bool.not_false, if_pos]; exact hp
      | true =>
        simp only [h3, Bool.not_true, Bool.false_eq_true, if_neg, reduceIte]
        exact not_mem_sdel sid _
  · intro env s sid u h1 h2 h3 hthrow hum hai
    unfold handleSessionIdle
    rw [if_neg h1, if_neg h2]
    simp only [h3, Bool.not_true, Bool.false_eq_true, if_false, hthrow, hum, hai]
    by_cases hm : s.cheapestModel = ModelCache.unresolved <;>
      by_cases hk : sid ∈ s.keywordTitledSessions <;>
        simp [hm, hk, mem_sadd, sdel_sadd_self, h1, h2]

/-- Witness for C7 at concrete inputs: a null AI result on a session that
already carries a keyword title marks it terminal, keeps the keyword set
and restores `pendingAI`. -/
theorem handleSessionIdle_outcomes_witness :
    (("s1" : String) ∈
        (handleSessionIdle ⟨some "New Session", some "hi", none, none, false, none, true⟩
          { initState with keywordTitledSessions := ["s1"] } "s1").1.aiTitledSessions ↔
      ("s1" : String) ∈ ["s1"]) ∧
    (handleSessionIdle ⟨some "New Session", some "hi", none, none, false, none, true⟩
        { initState with keywordTitledSessions := ["s1"] } "s1").1.keywordTitledSessions =
      ["s1"] ∧
    (handleSessionIdle ⟨some "New Session", some "hi", none, none, false, none, true⟩
        { initState with keywordTitledSessions := ["s1"] } "s1").1.pendingAISessions = [] ∧
    (¬ ("s1" : String) ∈ ["s1"] →
      (handleSessionIdle ⟨some "New Session", some "hi", none, none, false, none, true⟩
          { initState with keywordTitledSessions := ["s1"] } "s1").1.aiTitledSessions = []) :=
  handleSessionIdle_outcomes.2
    ⟨some "New Session", some "hi", none, none, false, none, true⟩
    { initState with keywordTitledSessions := ["s1"] } "s1" "hi"
    (by decide) (by decide) (by decide) rfl rfl rfl

/-- C8: invoking the user-message handler twice in sequence for the same
session id and text, starting from a session with a default (modifiable)
title, untracked state and a successful first title write, makes exactly
one title-update call in total: the first invocation makes the single call
and records the session in `keywordTitledSessions`, and the second
invocation is a no-op because of that record. -/
theorem handleUserMessage_idempotent (ml : Nat) (env1 env2 : UmEnv) (s : State)
    (sid text : String)
    (hk : ¬ sid ∈ s.keywordTitledSessions) (ha : ¬ sid ∈ s.aiTitledSessions)
    (hdef : shouldModifyTitle env1.currentTitle = true)
    (hkw : ¬ generateFallbackTitle text (ml - 2) = "")
    (hok : env1.updateOk = true) :
    (handleUserMessage ml env1 s sid text).2.length = 1 ∧
    (handleUserMessage ml env2 (handleUserMessage ml env1 s sid text).1 sid text).2 = [] ∧
    sid ∈ (handleUserMessage ml env1 s sid text).1.keywordTitledSessions := by
  have hfirst :
      handleUserMessage ml env1 s sid text =
        ({ s with keywordTitledSessions := sadd sid s.keywordTitledSessions },
         [Call.updateTitleCall sid (EMOJI_KEYWORD ++ " " ++ generateFallbackTitle text (ml - 2))]) := by
    unfold handleUserMessage
    rw [if_neg (by simp [hk, ha]), if_neg (by simp [hdef])]
    simp only [hkw, if_false, hok, if_true, reduceIte]
  have hmem : sid ∈ (handleUserMessage ml env1 s sid text).1.keywordTitledSessions := by
    rw [hfirst]
    simp [mem_sadd]
  refine ⟨by rw [hfirst]; rfl, ?_, hmem⟩
  rw [hfirst]
  show (handleUserMessage ml env2
      { s with keywordTitledSessions := sadd sid s.keywordTitledSessions } sid text).2 = []
  unfold handleUserMessage
  rw [if_pos (Or.inl (by simp [mem_sadd]))]

/-- Witness for C8 at concrete inputs. -/
theorem handleUserMessage_idempotent_witness :
    (handleUserMessage 60 ⟨some "New Session", true⟩ initState "s1" "fix the parser bug").2.length = 1 ∧
    (handleUserMessage 60 ⟨none, false⟩
        (handleUserMessage 60 ⟨some "New Session", true⟩ initState "s1" "fix the parser bug").1
        "s1" "fix the parser bug").2 = [] ∧
    "s1" ∈ (handleUserMessage 60 ⟨some "New Session", true⟩ initState "s1" "fix the parser bug").1.keywordTitledSessions :=
  handleUserMessage_idempotent 60 ⟨some "New Session", true⟩ ⟨none, false⟩ initState
    "s1" "fix the parser bug" (by decide) (by decide) (by decide) (by decide) rfl

theorem shouldModifyTitle_keyword_marked (r : String) :
    shouldModifyTitle (some (EMOJI_KEYWORD ++ " " ++ r)) = true := by
  cases r with
  | mk rl =>
    show shouldModifyTitle (some ⟨'🔍' :: ' ' :: rl⟩) = true
    simp [shouldModifyTitle, hasPluginEmoji, EMOJI_KEYWORD, EMOJI_AI, List.isPrefixOf]

theorem shouldModifyTitle_ai_marked (r : String) :
    shouldModifyTitle (some (EMOJI_AI ++ " " ++ r)) = true := by
  cases r with
  | mk rl =>
    show shouldModifyTitle (some ⟨'✨' :: ' ' :: rl⟩) = true
    simp [shouldModifyTitle, hasPluginEmoji, EMOJI_KEYWORD, EMOJI_AI, List.isPrefixOf]

/-- C10: every title either handler passes to the title-update operation
starts with one of the plugin's marker prefixes followed by a space (the
keyword marker in the user-message handler, the AI marker in the idle
handler), and `shouldModifyTitle` therefore classifies every plugin-written
title as modifiable: the plugin never mistakes its own output for a user
custom title, so the AI phase can supersede the keyword phase and a
restarted process can re-title plugin-titled sessions. -/
theorem plugin_titles_self_recognizable :
    (∀ (ml : Nat) (env : UmEnv) (s : State) (sid text sid2 t : String),
        Call.updateTitleCall sid2 t ∈ (handleUserMessage ml env s sid text).2 →
        (∃ rest, t = EMOJI_KEYWORD ++ " " ++ rest) ∧ shouldModifyTitle (some t) = true) ∧
    (∀ (env : IdleEnv) (s : State) (sid sid2 t : String),
        Call.updateTitleCall sid2 t ∈ (handleSessionIdle env s sid).2 →
        (∃ rest, t = EMOJI_AI ++ " " ++ rest) ∧ shouldModifyTitle (some t) = true) := by
  constructor
  · intro ml env s sid text sid2 t h
    by_cases h1 : sid ∈ s.keywordTitledSessions ∨ sid ∈ s.aiTitledSessions
    · simp [handleUserMessage, h1] at h
    · cases h2 : shouldModifyTitle env.currentTitle with
      | false => simp [handleUserMessage, h1, h2] at h
      | true =>
        by_cases h3 : generateFallbackTitle text (ml - 2) = ""
        · simp [handleUserMessage, h1, h2, h3] at h
        · cases h4 : env.updateOk <;>
          · simp [handleUserMessage, h1, h2, h3, h4] at h
            obtain ⟨-, rfl⟩ := h
            exact ⟨⟨_, rfl⟩, shouldModifyTitle_keyword_marked _⟩
  · intro env s sid sid2 t h
    by_cases ha : sid ∈ s.aiTitledSessions
    · simp [handleSessionIdle, ha] at h
    · by_cases hp : sid ∈ s.pendingAISessions
      · simp [handleSessionIdle, ha, hp] at h
      · cases ht : shouldModifyTitle env.currentTitle with
        | false => simp [handleSessionIdle, ha, hp, ht] at h
        | true =>
          cases hth : env.throws with
          | true => simp [handleSessionIdle, ha, hp, ht, hth] at h
          | false =>
            cases hum : env.userMessage with
            | none => simp [handleSessionIdle, ha, hp, ht, hth, hum] at h
            | some u =>
              cases hai : env.aiTitle with
              | none =>
                by_cases hm : s.cheapestModel = ModelCache.unresolved <;>
                  by_cases hk : sid ∈ s.keywordTitledSessions <;>
                    simp [handleSessionIdle, ha, hp, ht, hth, hum, hai, hm, hk] at h
              | some t2 =>
                by_cases hm : s.cheapestModel = ModelCache.unresolved <;>
                  cases hok : env.updateOk <;>
                  · simp [handleSessionIdle, ha, hp, ht, hth, hum, hai, hm, hok] at h
                    obtain ⟨-, rfl⟩ := h
                    exact ⟨⟨_, rfl⟩, shouldModifyTitle_ai_marked _⟩

/-- Witness for C10 at a concrete run that does write a title. -/
theorem plugin_titles_self_recognizable_witness :
    (∃ rest, ("🔍 Fix The Parser Bug" : String) = EMOJI_KEYWORD ++ " " ++ rest) ∧
    shouldModifyTitle (some ("🔍 Fix The Parser Bug" : String)) = true :=
  plugin_titles_self_recognizable.1 60 ⟨none, true⟩ initState "s1" "fix the parser bug"
    "s1" "🔍 Fix The Parser Bug" (by decide)

/-- Program points from which, as long as the fetched title is a custom
title, a handler invocation can never emit a title-update call: the entry
segments, the title-check segments (which go terminal on a custom title)
and the finished state. -/
def quietPC : HPC → Prop
  | .umEntry _ => True
  | .umTitleFetched _ => True
  | .idEntry => True
  | .idTitleFetched => True
  | .hdone => True
  | _ => False

theorem step_sid (o : Oracle) (ml : Nat) (s : State) (inst : Inst) :
    ((step o ml s inst).2.1).sid = inst.sid := by
  cases inst with
  | mk sid pc =>
    cases pc <;> simp only [step] <;> (first | rfl | (repeat' split) <;> rfl)

theorem step_update_calls (o : Oracle) (ml : Nat) (s : State) (inst : Inst)
    (sid₀ t : String) (h : Call.updateTitleCall sid₀ t ∈ (step o ml s inst).2.2) :
    inst.sid = sid₀ := by
  cases inst with
  | mk sid pc =>
    cases pc <;> simp only [step] at h <;>
      (repeat' split at h) <;> simp at h <;> tauto

theorem step_quiet (o : Oracle) (ml : Nat) (sid₀ : String)
    (hcustom : shouldModifyTitle (o.getTitle sid₀) = false)
    (s : State) (inst : Inst) (hsid : inst.sid = sid₀) (hq : quietPC inst.pc) :
    quietPC ((step o ml s inst).2.1).pc ∧ (step o ml s inst).2.2 = [] := by
  cases inst with
  | mk sid pc =>
    cases hsid
    cases pc with
    | umEntry text =>
      simp only [step]
      split <;> exact ⟨trivial, rfl⟩
    | umTitleFetched text =>
      simp only [step, hcustom, Bool.not_false, if_pos]
      exact ⟨trivial, by first | rfl | trivial⟩
    | idEntry =>
      simp only [step]
      split
      · exact ⟨trivial, rfl⟩
      · split <;> exact ⟨trivial, rfl⟩
    | idTitleFetched =>
      simp only [step, hcustom, Bool.not_false, if_pos]
      exact ⟨trivial, by first | rfl | trivial⟩
    | hdone => exact ⟨hq, rfl⟩
    | umUpdateDone => exact absurd hq (by simp [quietPC])
    | idMessagesFetched => exact absurd hq (by simp [quietPC])
    | idModelFetched => exact absurd hq (by simp [quietPC])
    | idAIDone => exact absurd hq (by simp [quietPC])
    | idUpdateDone => exact absurd hq (by simp [quietPC])

theorem run_quiet_no_update (o : Oracle) (ml : Nat) (sid₀ : String)
    (hcustom : shouldModifyTitle (o.getTitle sid₀) = false) :
    ∀ (sched : List Nat) (s : State) (insts : List Inst),
      (∀ inst ∈ insts, inst.sid = sid₀ → quietPC inst.pc) →
      ∀ t, ¬ Call.updateTitleCall sid₀ t ∈ (run o ml s insts sched).2.2 := by
  intro sched
  induction sched with
  | nil =>
    intro s insts hinv t h
    simp [run] at h
  | cons i sched ih =>
    intro s insts hinv t h
    unfold run at h
    cases hg : insts.get? i with
    | none =>
      rw [hg] at h
      exact ih s insts hinv t h
    | some inst =>
      rw [hg] at h
      simp only [List.mem_append] at h
      have hmem : inst ∈ insts := List.get?_mem hg
      rcases h with h | h
      · by_cases hs : inst.sid = sid₀
        · have hq := (step_quiet o ml sid₀ hcustom s inst hs (hinv inst hmem hs)).2
          rw [hq] at h
          simp at h
        · exact hs (step_update_calls o ml s inst sid₀ t h)
      · refine ih _ _ ?_ t h
        intro inst2 h2 hsid2
        rcases List.mem_or_eq_of_mem_set h2 with h2 | h2
        · exact hinv inst2 h2 hsid2
        · subst h2
          by_cases hs : inst.sid = sid₀
          · exact (step_quiet o ml sid₀ hcustom s inst hs (hinv inst hmem hs)).1
          · rw [step_sid] at hsid2
            exact absurd hsid2 hs

/-- C1: custom-title protection.  (1) In the interleaving model, if the
title store answers every `getSessionTitle` for a session with a title that
`shouldModifyTitle` rejects (a user's custom title), then no schedule of
freshly dispatched handler invocations ever makes a title-update call for
that session.  (2)/(3) A single user-message or session-idle invocation
that sees such a title makes no external call, marks the session terminal
(`aiTitled`) and changes nothing else.  (4) `"My custom title"` is such a
title. -/
theorem custom_title_protection :
    (∀ (o : Oracle) (ml : Nat) (sid₀ : String),
        shouldModifyTitle (o.getTitle sid₀) = false →
        ∀ (sched : List Nat) (s : State) (insts : List Inst),
          (∀ inst ∈ insts, inst.sid = sid₀ → quietPC inst.pc) →
          ∀ t, ¬ Call.updateTitleCall sid₀ t ∈ (run o ml s insts sched).2.2) ∧
    (∀ (ml : Nat) (env : UmEnv) (s : State) (sid text : String),
        shouldModifyTitle env.currentTitle = false →
        ¬ sid ∈ s.keywordTitledSessions → ¬ sid ∈ s.aiTitledSessions →
        handleUserMessage ml env s sid text =
          ({ s with aiTitledSessions := sadd sid s.aiTitledSessions }, [])) ∧
    (∀ (env : IdleEnv) (s : State) (sid : String),
        shouldModifyTitle env.currentTitle = false →
        ¬ sid ∈ s.aiTitledSessions → ¬ sid ∈ s.pendingAISessions →
        handleSessionIdle env s sid =
          ({ s with aiTitledSessions := sadd sid s.aiTitledSessions }, [])) ∧
    shouldModifyTitle (some "My custom title") = false := by
  refine ⟨run_quiet_no_update, ?_, ?_, by decide⟩
  · intro ml env s sid text hcustom hk ha
    unfold handleUserMessage
    rw [if_neg (by simp [hk, ha]), if_pos (by simp [hcustom])]
  · intro env s sid hcustom ha hp
    unfold handleSessionIdle
    rw [if_neg ha, if_neg hp, if_pos (by simp [hcustom])]

/-- Witness for C1 at concrete inputs: a user-message invocation and a
two-instance interleaved run, both against the custom title. -/
theorem custom_title_protection_witness :
    handleUserMessage 60 ⟨some "My custom title", true⟩ initState "s1" "hello world" =
      ({ initState with aiTitledSessions := sadd "s1" initState.aiTitledSessions }, []) ∧
    ¬ Call.updateTitleCall "s1" "🔍 Hello World" ∈
        (run
          { getTitle := fun _ => some "My custom title",
            userMessage := fun _ => some "hello world",
            foundModel := none, aiResult := fun _ => none, updateOk := fun _ => true }
          60 initState [⟨"s1", .umEntry "hello world"⟩, ⟨"s1", .idEntry⟩]
          [0, 1, 0, 1, 0, 1]).2.2 :=
  ⟨custom_title_protection.2.1 60 ⟨some "My custom title", true⟩ initState "s1"
      "hello world" (by decide) (by decide) (by decide),
   custom_title_protection.1
      { getTitle := fun _ => some "My custom title",
        userMessage := fun _ => some "hello world",
        foundModel := none, aiResult := fun _ => none, updateOk := fun _ => true }
      60 "s1" (by decide) [0, 1, 0, 1, 0, 1] initState
      [⟨"s1", .umEntry "hello world"⟩, ⟨"s1", .idEntry⟩]
      (by
        intro inst hmem hsid
        rcases List.mem_cons.mp hmem with rfl | hmem2
        · trivial
        · rcases List.mem_cons.mp hmem2 with rfl | hmem3
          · trivial
          · simp at hmem3) "🔍 Hello World"⟩

/-- Collaborator responses for the interleaving analysis of the idle
handler: a default ("New Session") title, a present user message, an
available model, a successful generation and a successful update. -/
def raceOracle : Oracle :=
  { getTitle := fun _ => some "New Session"
    userMessage := fun _ => some "hello there"
    foundModel := some ("p", "m")
    aiResult := fun _ => some "Greeting Chat"
    updateOk := fun _ => true }

/-- C2 counterexample: the source checks `pendingAISessions` at the top of
`handleSessionIdle` (line 632) but only adds the session *after* the
awaited `getSessionTitle` and its `shouldModifyTitle` re-check (lines
637-646).  Two idle-event invocations for the same session interleaved
across that suspension point both pass the guard before either marks
`pendingAI`, so both reach AI generation: under the schedule
`[0, 1, 0, 0, 0, 1, 1]` the pool of two fresh idle invocations for
session `"s1"` makes two `generateAITitle` calls. -/
theorem idle_generation_race :
    ((run raceOracle 60 initState [⟨"s1", .idEntry⟩, ⟨"s1", .idEntry⟩]
        [0, 1, 0, 0, 0, 1, 1]).2.2).count (Call.aiGenerate "s1") = 2 := by decide

/-- C2 (amended): a session-idle event for a session already recorded in
`pendingAI` at dispatch is ignored (both in the atomic view and at the
entry segment of the interleaving model); but the handler marks `pendingAI`
only *after* re-checking `shouldModifyTitle` on the freshly awaited current
title, so the guard does not serialize invocations that interleave across
the title fetch: two such idle events for the same session can both reach
AI generation. -/
theorem idle_mutual_exclusion_spec :
    (∀ (env : IdleEnv) (s : State) (sid : String),
        sid ∈ s.pendingAISessions → ¬ sid ∈ s.aiTitledSessions →
        handleSessionIdle env s sid = (s, [])) ∧
    (∀ (o : Oracle) (ml : Nat) (s : State) (inst : Inst),
        inst.pc = HPC.idEntry → inst.sid ∈ s.pendingAISessions →
        ¬ inst.sid ∈ s.aiTitledSessions →
        step o ml s inst = (s, { inst with pc := HPC.hdone }, [])) ∧
    ((run raceOracle 60 initState [⟨"s1", .idEntry⟩, ⟨"s1", .idEntry⟩]
        [0, 1, 0, 0, 0, 1, 1]).2.2).count (Call.aiGenerate "s1") = 2 := by
  refine ⟨?_, ?_, by decide⟩
  · intro env s sid hp ha
    unfold handleSessionIdle
    rw [if_neg ha, if_pos hp]
  · intro o ml s inst hpc hp ha
    cases inst with
    | mk sid pc =>
      cases hpc
      simp only [step]
      rw [if_neg ha, if_pos hp]

/-- Witness for C2 at concrete inputs: an idle invocation for a session
already in `pendingAI` is a no-op. -/
theorem idle_mutual_exclusion_spec_witness :
    handleSessionIdle ⟨some "New Session", some "hi", none, none, false, none, true⟩
        { initState with pendingAISessions := ["s1"] } "s1" =
      ({ initState with pendingAISessions := ["s1"] }, []) :=
  idle_mutual_exclusion_spec.1
    ⟨some "New Session", some "hi", none, none, false, none, true⟩
    { initState with pendingAISessions := ["s1"] } "s1" (by decide) (by decide)
